import Mathlib

/-!
Verification of the FreeCell rules engine (`logic.go`) against its
natural-language specification.

The Go source is shallowly embedded: the 52-entry board array becomes a
`List Nat` of length 52, Go `uint` arithmetic becomes `Nat` arithmetic
(Go subtraction that can wrap is modelled with an explicit `% 2 ^ 64`),
and every Go function used by a claim is translated into an executable
Lean definition carrying the source's name.
-/

namespace PureCell

/-! ## Constants (from the `const` block of `logic.go`) -/

/-- card color BLK. -/
def BLK : Nat := 0
/-- card color RED. -/
def RED : Nat := 1

/-- card suit club. -/
def CLB : Nat := 0
/-- card suit diamond. -/
def DMD : Nat := 1
/-- card suit heart. -/
def HRT : Nat := 2
/-- card suit spade. -/
def SPD : Nat := 3

/-- card rank ace. -/
def ACES : Nat := 0

/-- hide cards using an invalid board location; added to the existing
foundation board ID to hide buried foundation cards. -/
def HIDDEN_CARD : Nat := 9999

/-- used for empty slots. -/
def NO_CARD : Nat := 999

/-- empty piles are indicated by 100+pileID. -/
def EMPTY_PILE1 : Nat := 100
/-- largest empty-pile pseudo id. -/
def EMPTY_PILE16 : Nat := 115

/-- 0:167 gives 168 spots for 1 top row plus 20 cascade rows. -/
def MAX_BOARD_ID : Nat := 167

/-- 1 million games starting at game 0. -/
def MAX_SEED : Nat := 999999

/-! ## Card (struct `Card` of `logic.go`) -/

/-- a standard playing card: unique id 0..51, suit 0..3, rank 0..12,
color 0..1, and a human readable symbol. -/
structure Card where
  id : Nat
  suit : Nat
  rank : Nat
  color : Nat
  sym : String
deriving DecidableEq, Repr

/-- Go `InvalidCard` used for debugging error cases. -/
def InvalidCard : Card := { id := NO_CARD, suit := 0, rank := 0, color := 0, sym := "--" }

/-- the sorted deck of 52 playing cards (the constant `deck` table). -/
def deckList : List Card :=
  [ { id := 0, suit := CLB, rank := 0, color := BLK, sym := "AC" },
    { id := 1, suit := DMD, rank := 0, color := RED, sym := "AD" },
    { id := 2, suit := HRT, rank := 0, color := RED, sym := "AH" },
    { id := 3, suit := SPD, rank := 0, color := BLK, sym := "AS" },
    { id := 4, suit := CLB, rank := 1, color := BLK, sym := "2C" },
    { id := 5, suit := DMD, rank := 1, color := RED, sym := "2D" },
    { id := 6, suit := HRT, rank := 1, color := RED, sym := "2H" },
    { id := 7, suit := SPD, rank := 1, color := BLK, sym := "2S" },
    { id := 8, suit := CLB, rank := 2, color := BLK, sym := "3C" },
    { id := 9, suit := DMD, rank := 2, color := RED, sym := "3D" },
    { id := 10, suit := HRT, rank := 2, color := RED, sym := "3H" },
    { id := 11, suit := SPD, rank := 2, color := BLK, sym := "3S" },
    { id := 12, suit := CLB, rank := 3, color := BLK, sym := "4C" },
    { id := 13, suit := DMD, rank := 3, color := RED, sym := "4D" },
    { id := 14, suit := HRT, rank := 3, color := RED, sym := "4H" },
    { id := 15, suit := SPD, rank := 3, color := BLK, sym := "4S" },
    { id := 16, suit := CLB, rank := 4, color := BLK, sym := "5C" },
    { id := 17, suit := DMD, rank := 4, color := RED, sym := "5D" },
    { id := 18, suit := HRT, rank := 4, color := RED, sym := "5H" },
    { id := 19, suit := SPD, rank := 4, color := BLK, sym := "5S" },
    { id := 20, suit := CLB, rank := 5, color := BLK, sym := "6C" },
    { id := 21, suit := DMD, rank := 5, color := RED, sym := "6D" },
    { id := 22, suit := HRT, rank := 5, color := RED, sym := "6H" },
    { id := 23, suit := SPD, rank := 5, color := BLK, sym := "6S" },
    { id := 24, suit := CLB, rank := 6, color := BLK, sym := "7C" },
    { id := 25, suit := DMD, rank := 6, color := RED, sym := "7D" },
    { id := 26, suit := HRT, rank := 6, color := RED, sym := "7H" },
    { id := 27, suit := SPD, rank := 6, color := BLK, sym := "7S" },
    { id := 28, suit := CLB, rank := 7, color := BLK, sym := "8C" },
    { id := 29, suit := DMD, rank := 7, color := RED, sym := "8D" },
    { id := 30, suit := HRT, rank := 7, color := RED, sym := "8H" },
    { id := 31, suit := SPD, rank := 7, color := BLK, sym := "8S" },
    { id := 32, suit := CLB, rank := 8, color := BLK, sym := "9C" },
    { id := 33, suit := DMD, rank := 8, color := RED, sym := "9D" },
    { id := 34, suit := HRT, rank := 8, color := RED, sym := "9H" },
    { id := 35, suit := SPD, rank := 8, color := BLK, sym := "9S" },
    { id := 36, suit := CLB, rank := 9, color := BLK, sym := "TC" },
    { id := 37, suit := DMD, rank := 9, color := RED, sym := "TD" },
    { id := 38, suit := HRT, rank := 9, color := RED, sym := "TH" },
    { id := 39, suit := SPD, rank := 9, color := BLK, sym := "TS" },
    { id := 40, suit := CLB, rank := 10, color := BLK, sym := "JC" },
    { id := 41, suit := DMD, rank := 10, color := RED, sym := "JD" },
    { id := 42, suit := HRT, rank := 10, color := RED, sym := "JH" },
    { id := 43, suit := SPD, rank := 10, color := BLK, sym := "JS" },
    { id := 44, suit := CLB, rank := 11, color := BLK, sym := "QC" },
    { id := 45, suit := DMD, rank := 11, color := RED, sym := "QD" },
    { id := 46, suit := HRT, rank := 11, color := RED, sym := "QH" },
    { id := 47, suit := SPD, rank := 11, color := BLK, sym := "QS" },
    { id := 48, suit := CLB, rank := 12, color := BLK, sym := "KC" },
    { id := 49, suit := DMD, rank := 12, color := RED, sym := "KD" },
    { id := 50, suit := HRT, rank := 12, color := RED, sym := "KH" },
    { id := 51, suit := SPD, rank := 12, color := BLK, sym := "KS" } ]

/-- Go `isCard` returns true if the card id is valid (`cardID >= AC && cardID <= KS`). -/
def isCard (cardID : Nat) : Bool := cardID ≤ 51

/-- Go `getCard` returns (a copy of) the requested card. -/
def getCard (cardID : Nat) : Card :=
  if isCard cardID then deckList.getD cardID InvalidCard else InvalidCard

/-! ## Classic rand (`srand`/`randClassic` of `logic.go`)

Go computes `rseed = (rseed*214013 + 2531011) & RAND_MAX_32` on a 64-bit
`uint`; since `rseed < 2^31` the product stays far below `2^64`, so the
64-bit arithmetic is exact and the `& 0x7FFFFFFF` mask is exactly
`% 2^31`.  `>> 16` is division by `2^16`. -/

/-- one step of the classic Microsoft LCG: the new 31-bit state. -/
def randState (rseed : Nat) : Nat := (rseed * 214013 + 2531011) % 2 ^ 31

/-- Go `randClassic` advances the state and returns (output, new state). -/
def randClassic (rseed : Nat) : Nat × Nat :=
  let s := randState rseed
  (s / 2 ^ 16, s)

/-! ## shuffle (`shuffle` of `logic.go`) -/

/-- the shuffle loop of `shuffle`: `fuel` iterations remain; `rs` is the
generator state; `dk` is the working `deck` array of card ids; `deal` is
the output array (pre-filled with `NO_CARD`); `dealt` counts cards dealt;
`rem` is the `remainder` counter.  Each step deals `dk[j]` for
`j = randClassic() % remainder` into `deal[dealt]` and compacts `dk` by
moving `dk[remainder-1]` into slot `j`. -/
def shuffleLoop : Nat → Nat → List Nat → List Nat → Nat → Nat → List Nat
  | 0, _, _, deal, _, _ => deal
  | fuel + 1, rs, dk, deal, dealt, rem =>
    let p := randClassic rs
    let j := p.1 % rem
    let deal2 := deal.set dealt (dk.getD j 0)
    let dk2 := dk.set j (dk.getD (rem - 1) 0)
    shuffleLoop fuel p.2 dk2 deal2 (dealt + 1) (rem - 1)

/-- Go `shuffle` the deck based on the given seed: deal 52 ids from a working
array initialized to `0,...,51`, then index the ordered deck with them. -/
def shuffle (seed : Nat) (ordered : List Card) : List Card :=
  let dk := List.range 52
  let deal := List.replicate 52 NO_CARD
  let ids := shuffleLoop 52 seed dk deal 0 52
  ids.map (fun i => ordered.getD i InvalidCard)

/-! ## Reference shuffle (from the specification's words, for claim C1)

"Seed a 31-bit LCG with `state = seed` where each draw computes
`state = (state * 214013 + 2531011) & 0x7FFFFFFF` and yields
`state >> 16`; then, starting from the identity array of 52 card ids and
`remainder = 52`, for each of 52 draws take `j = draw() % remainder`,
emit `workingArray[j]`, overwrite `workingArray[j]` with
`workingArray[remainder-1]`, and decrement `remainder`; the emitted id
sequence indexes the ordered deck to give the shuffled deck." -/

/-- one reference draw: new state and output (`& 0x7FFFFFFF` is the
low-31-bit mask, i.e. `% 2^31`; `>> 16` is `/ 2^16`). -/
def refDraw (state : Nat) : Nat × Nat :=
  let s := (state * 214013 + 2531011) % 2 ^ 31
  (s / 2 ^ 16, s)

/-- reference dealing loop: emits `workingArray[j]`, overwrites slot `j`
with `workingArray[remainder-1]`, decrements `remainder`. -/
def refDeal : Nat → Nat → List Nat → Nat → List Nat
  | 0, _, _, _ => []
  | fuel + 1, state, work, rem =>
    let p := refDraw state
    let j := p.1 % rem
    work.getD j 0 :: refDeal fuel p.2 (work.set j (work.getD (rem - 1) 0)) (rem - 1)

/-- the reference algorithm's shuffled deck: the emitted id sequence
indexes the ordered deck. -/
def refShuffle (seed : Nat) (ordered : List Card) : List Card :=
  (refDeal 52 seed (List.range 52) 52).map (fun i => ordered.getD i InvalidCard)

/-! ### Proof that the source shuffle equals the reference shuffle -/

lemma set_append_cons (pre : List Nat) (x v : Nat) (t : List Nat) :
    (pre ++ x :: t).set pre.length v = pre ++ v :: t := by
  induction pre with
  | nil => rfl
  | cons a pre ih => simp [List.set, ih]

lemma shuffleLoop_eq_refDeal (fuel : Nat) :
    ∀ (rs : Nat) (dk : List Nat) (pre : List Nat) (rem : Nat),
      shuffleLoop fuel rs dk (pre ++ List.replicate fuel NO_CARD) pre.length rem
        = pre ++ refDeal fuel rs dk rem := by
  induction fuel with
  | zero => intro rs dk pre rem; simp [shuffleLoop, refDeal]
  | succ n ih =>
    intro rs dk pre rem
    rw [shuffleLoop, refDeal]
    have hrepl : List.replicate (n + 1) NO_CARD = NO_CARD :: List.replicate n NO_CARD := rfl
    rw [hrepl, set_append_cons]
    have hpre : (pre ++ [dk.getD ((randClassic rs).1 % rem) 0]).length = pre.length + 1 := by
      simp
    have := ih (randClassic rs).2 (dk.set ((randClassic rs).1 % rem) (dk.getD (rem - 1) 0))
      (pre ++ [dk.getD ((randClassic rs).1 % rem) 0]) (rem - 1)
    rw [hpre] at this
    simpa [List.append_assoc] using this

/-- C1: for every seed in `[0, 999999]`, `shuffle(seed, orderedDeck)`
equals the permutation produced by the reference algorithm: a 31-bit LCG
(`state = state * 214013 + 2531011 & 0x7FFFFFFF`, draw `state >> 16`)
drives a compacting 52-draw deal from the identity id array, and the
emitted id sequence indexes the ordered deck. -/
theorem shuffle_eq_reference (seed : Nat) (h : seed ≤ MAX_SEED) :
    shuffle seed deckList = refShuffle seed deckList := by
  have key := shuffleLoop_eq_refDeal 52 seed (List.range 52) [] 52
  simp only [List.nil_append, List.length_nil] at key
  simp only [shuffle, refShuffle, key]

/-- witness for C1: seed 1 is in range and the theorem applies to it. -/
theorem shuffle_eq_reference_witness :
    1 ≤ MAX_SEED ∧ shuffle 1 deckList = refShuffle 1 deckList :=
  ⟨by decide, shuffle_eq_reference 1 (by decide)⟩

/-! ## Move history (struct `moves` of `logic.go`)

A board is the 52-element array of board locations, one per card id,
embedded as a `List Nat` of length 52. -/

/-- move history: board snapshots plus the player undo counter. -/
structure Moves where
  stack : List (List Nat)
  undos : Nat
deriving DecidableEq, Repr

/-- Go `record` the current board position (push). -/
def Moves.record (mv : Moves) (move : List Nat) : Moves :=
  { mv with stack := mv.stack ++ [move] }

/-- Go `undo` updates gamestate to the previous move, popping only while
more than one snapshot remains, and returns the (new) top snapshot
together with the updated history. -/
def Moves.undo (mv : Moves) : List Nat × Moves :=
  if 1 < mv.stack.length then
    let st := mv.stack.dropLast
    (st.getLastD [], { stack := st, undos := mv.undos + 1 })
  else
    (mv.stack.getLastD [], mv)

/-- Go `reset` clears all moves and resets move counters. -/
def Moves.reset : Moves := { stack := [], undos := 0 }

/-- Go `count` returns the number of moves: game moves plus twice the undos. -/
def Moves.count (mv : Moves) : Nat := mv.stack.length + mv.undos * 2

/-! ## Game state (struct `logic` of `logic.go`) -/

/-- the game rules and game state: selected card, game seed, the dealt
deck, the board location of every card, and the move history. -/
structure Logic where
  selected : Nat
  gameSeed : Nat
  deal : List Card
  board : List Nat
  moves : Moves
deriving DecidableEq, Repr

/-- Go `isCascade`: board positions 8..167 are cascade cells. -/
def isCascade (boardID : Nat) : Bool := decide (8 ≤ boardID ∧ boardID ≤ MAX_BOARD_ID)

/-- Go `isFoundation`: board positions 4..7 are foundation tops. -/
def isFoundation (boardID : Nat) : Bool := decide (4 ≤ boardID ∧ boardID ≤ 7)

/-- Go `isFreecell`: board positions 0..3 are freecells. -/
def isFreecell (boardID : Nat) : Bool := decide (boardID ≤ 3)

/-- Go `cardAt` gets the card at the given board location by scanning all 52
card ids in order; `NO_CARD` if there is nothing there. -/
def Logic.cardAt (l : Logic) (boardPosition : Nat) : Nat :=
  match (List.range 52).find? (fun cid => l.board.getD cid NO_CARD == boardPosition) with
  | some cid => cid
  | none => NO_CARD

/-- Go `isLastInCascade` returns true if the given card is the last card in
a cascade. -/
def Logic.isLastInCascade (l : Logic) (cardID : Nat) : Bool :=
  let boardLocation := l.board.getD cardID NO_CARD
  if 8 ≤ boardLocation ∧ boardLocation ≤ MAX_BOARD_ID then
    l.cardAt (boardLocation + 8) == NO_CARD
  else false

/-- Go `lastInCascade` returns the last card in the indicated cascade
(0-7), scanning the 52 card ids in order; cascades can be empty. -/
def Logic.lastInCascade (l : Logic) (cascadeID : Nat) : Card :=
  match (List.range 52).find? (fun cid =>
      l.isLastInCascade cid && (cascadeID == l.board.getD cid NO_CARD % 8)) with
  | some cid => deckList.getD cid InvalidCard
  | none => InvalidCard

/-- Go `emptyPile` returns true if there is no card in the indicated pile
(0-15); out-of-range pile ids are a logged developer error returning
false. -/
def Logic.emptyPile (l : Logic) (pileID : Nat) : Bool :=
  if pileID ≤ 15 then
    (List.range 52).all (fun cid => !(l.board.getD cid NO_CARD == pileID))
  else false

/-- Go `countEmptyCells` returns the number of empty piles among `piles`. -/
def Logic.countEmptyCells (l : Logic) (piles : List Nat) : Nat :=
  piles.countP (fun pileID => l.emptyPile pileID)

/-- Go `emptyFreeCells` returns the number of empty free cells. -/
def Logic.emptyFreeCells (l : Logic) : Nat := l.countEmptyCells [0, 1, 2, 3]

/-- Go `emptyCascades` returns the number of empty cascade piles. -/
def Logic.emptyCascades (l : Logic) : Nat :=
  l.countEmptyCells [8, 9, 10, 11, 12, 13, 14, 15]

/-- Go `nextInSequence` returns true if card `b` is 1 rank less than card
`a` and the opposite color.  Go computes `a.Rank - 1` on a 64-bit
unsigned integer, so an ace (`rank 0`) wraps to `2^64 - 1` and matches
no card; the wraparound is modelled with an explicit `% 2^64`. -/
def nextInSequence (a b : Card) : Bool :=
  (b.rank == (a.rank + (2 ^ 64 - 1)) % 2 ^ 64) && !(b.color == a.color)

/-- Go `isNextInFoundation` returns true if card `b` is the next card for
the foundation pile of `suit` whose current top is `a` (`a.id = NO_CARD`
when that foundation is empty). -/
def isNextInFoundation (suit : Nat) (a b : Card) : Bool :=
  if suit > SPD then false
  else
    let onEmpty := a.id == NO_CARD && b.suit == suit && b.rank == ACES
    let onCard := !(a.id == NO_CARD) && b.suit == suit && b.rank == a.rank + 1
    onEmpty || onCard

/-- Go `clearSelected` starts with nothing selected. -/
def Logic.clearSelected (l : Logic) : Logic := { l with selected := NO_CARD }

/-- Go `isSelectionActive` returns true while a card is selected. -/
def Logic.isSelectionActive (l : Logic) : Bool := isCard l.selected

/-- the `GetSelected` cascade-walking loop.  The loop body appends the
current `nextCardID` and advances; Go bounds it by `len(v) < 10`
(`maxCascade`), so any fuel of at least 10 reproduces it exactly. -/
def Logic.GetSelectedLoop (l : Logic) : Nat → List Nat → Nat → Nat → List Nat
  | 0, v, _, _ => v
  | fuel + 1, v, cardID, nextCardID =>
    if !(nextCardID == NO_CARD) && nextInSequence (getCard cardID) (getCard nextCardID)
        && decide (v.length < 10) then
      let bp := l.board.getD nextCardID NO_CARD
      l.GetSelectedLoop fuel (v ++ [nextCardID]) nextCardID (l.cardAt (bp + 8))
    else v

/-- Go `GetSelected` returns the selected card and its cascade sequence; an
empty vector if nothing is selected. -/
def Logic.GetSelected (l : Logic) : List Nat :=
  if l.isSelectionActive then
    let boardPosition := l.board.getD l.selected NO_CARD
    if isCascade boardPosition then
      l.GetSelectedLoop 10 [l.selected] l.selected (l.cardAt (boardPosition + 8))
    else [l.selected]
  else []

/-- the `getSequence` cascade-walking loop with its `len(v) >= 13` loop
safety break; any fuel of at least 13 reproduces the Go loop exactly. -/
def Logic.getSequenceLoop (l : Logic) : Nat → List Nat → Nat → Nat → List Nat
  | 0, v, _, _ => v
  | fuel + 1, v, cardID, nextCardID =>
    if !(nextCardID == NO_CARD) && nextInSequence (getCard cardID) (getCard nextCardID) then
      if 13 ≤ v.length then v
      else
        let bp := l.board.getD nextCardID NO_CARD
        l.getSequenceLoop fuel (v ++ [nextCardID]) nextCardID (l.cardAt (bp + 8))
    else v

/-- Go `canMoveToCascade` checks the last card of each cascade to see if
the given card can be placed on it. -/
def Logic.canMoveToCascade (l : Logic) (cardID : Nat) : Bool :=
  let c := getCard cardID
  (List.range 8).any (fun cascadeID =>
    let lastCardInCascade := l.lastInCascade cascadeID
    !(lastCardInCascade.id == NO_CARD) && nextInSequence (getCard lastCardInCascade.id) c)

/-- Go `movableStackSize` returns the maximum size of a movable card
stack, adapting when the move target is itself an empty cascade. -/
def Logic.movableStackSize (l : Logic) (isEmptyCascadeUsed : Bool) : Nat :=
  let emptyCascades := l.emptyCascades
  if emptyCascades ≤ 0 then l.emptyFreeCells + 1
  else
    let ec := if isEmptyCascadeUsed then emptyCascades - 1 else emptyCascades
    if 0 < ec then 2 * (l.emptyFreeCells + 1 + (ec - 1))
    else l.emptyFreeCells + 1

/-- Go `getSequence` attempts to return a valid cascade sequence for the
given card: the walked run must end the cascade and fit within the
movable stack size; a freecell card is a singleton sequence. -/
def Logic.getSequence (l : Logic) (cardID : Nat) : List Nat :=
  let boardPosition := l.board.getD cardID NO_CARD
  if isCascade boardPosition then
    let v := l.getSequenceLoop 13 [cardID] cardID (l.cardAt (boardPosition + 8))
    let lastCard := v.getLastD NO_CARD
    if !(l.cardAt (l.board.getD lastCard NO_CARD + 8) == NO_CARD) then []
    else
      let needsEmptyCascade := !(l.canMoveToCascade (v.headD NO_CARD))
      if decide (l.movableStackSize needsEmptyCascade < v.length) then []
      else v
  else if isFreecell boardPosition then [cardID]
  else []

/-- Go `isSelected` returns true if the indicated card is part of the
current selection (including its cascade sequence). -/
def Logic.isSelected (l : Logic) (cardID : Nat) : Bool :=
  l.GetSelected.contains cardID

/-- Go `canPlaceCard` returns true if the selected cards can be placed on
the picked card or empty pile. -/
def Logic.canPlaceCard (l : Logic) (pick : Nat) : Bool :=
  let selects := l.GetSelected
  if 100 ≤ pick ∧ pick ≤ 115 then
    let s := getCard (selects.headD NO_CARD)
    let pileID := pick - EMPTY_PILE1
    if isFreecell pileID && selects.length == 1 then l.emptyPile pileID
    else if isFoundation pileID && selects.length == 1 then
      (s.suit == pileID - 4) && s.rank == ACES
    else if 8 ≤ pileID ∧ pileID ≤ 15 then l.emptyPile pileID
    else false
  else if isCard pick then
    let p := getCard pick
    let s := getCard (selects.headD NO_CARD)
    let boardPick := l.board.getD pick NO_CARD
    if isFoundation boardPick && selects.length == 1 then
      isNextInFoundation (boardPick - 4) p s
    else if isCascade boardPick then
      if l.isLastInCascade pick then nextInSequence p s else false
    else false
  else false

/-- Go `canSelectCard` returns true if the given pick is a selectable card:
not on a foundation, owning a valid sequence, with somewhere to go. -/
def Logic.canSelectCard (l : Logic) (pick : Nat) : Bool :=
  if !isCard pick then false
  else
    let boardPick := l.board.getD pick NO_CARD
    if isFoundation boardPick then false
    else if isCascade boardPick || isFreecell boardPick then
      let seq := l.getSequence pick
      if seq.length ≤ 0 then false
      else
        let c := getCard (seq.headD NO_CARD)
        (seq.length == 1 &&
          (decide (0 < l.emptyFreeCells) ||
            (l.emptyPile (c.suit + 4) && c.rank == ACES) ||
            isNextInFoundation c.suit (getCard (l.cardAt (c.suit + 4))) c))
        || decide (0 < l.emptyCascades)
        || l.canMoveToCascade (seq.headD NO_CARD)
    else false

/-- Go `canInteract` validates a possible user move: placing when a
selection is active, selecting otherwise. -/
def Logic.canInteract (l : Logic) (pick : Nat) : Bool :=
  if l.isSelectionActive then l.canPlaceCard pick else l.canSelectCard pick

/-- the sequence-placement loop of `Interact`: each card after the first
lands 8 below the previous card's just-written location. -/
def placeRest (board : List Nat) : List Nat → Nat → List Nat
  | [], _ => board
  | c :: rest, prev => placeRest (board.set c (board.getD prev NO_CARD + 8)) rest c

/-- place a whole sequence: the lead card goes to `base`, the rest chain
below it. -/
def placeSeq (board : List Nat) (seq : List Nat) (base : Nat) : List Nat :=
  match seq with
  | [] => board
  | c :: rest => placeRest (board.set c base) rest c

/-- a committed move: write the new board and record it in the history,
reporting that a card was moved. -/
def Logic.commit (l : Logic) (b : List Nat) : Logic × Bool :=
  ({ l with board := b, moves := l.moves.record b }, true)

/-- the placement half of `Interact` (selection already validated and
cleared): place the selected card(s) `seq` with lead card `s` onto
`pick`. -/
def Logic.placeSelected (l : Logic) (s : Card) (seq : List Nat) (pick : Nat) : Logic × Bool :=
  if 100 ≤ pick ∧ pick ≤ 115 then
    let pileID := pick - EMPTY_PILE1
    if isFreecell pileID && seq.length == 1 then
      if l.emptyPile pileID then l.commit (l.board.set s.id pileID) else (l, false)
    else if isFoundation pileID && seq.length == 1 then
      if s.suit == pileID - 4 then
        if l.emptyPile pileID && s.rank == ACES then l.commit (l.board.set s.id pileID)
        else (l, false)
      else (l, false)
    else if 8 ≤ pileID ∧ pileID ≤ 15 then
      if l.emptyPile pileID then
        if decide (l.movableStackSize true < seq.length) then (l, false)
        else l.commit (placeSeq l.board seq pileID)
      else (l, false)
    else (l, false)
  else if isCard pick then
    let p := getCard pick
    let boardPick := l.board.getD pick NO_CARD
    if isFoundation boardPick && seq.length == 1 then
      if s.rank == p.rank + 1 then
        l.commit ((l.board.set p.id (l.board.getD p.id NO_CARD + HIDDEN_CARD)).set s.id boardPick)
      else (l, false)
    else if isCascade boardPick then
      if nextInSequence p s then
        l.commit (placeSeq l.board seq (l.board.getD p.id NO_CARD + 8))
      else (l, false)
    else (l, false)
  else (l, false)

/-- Go `Interact` handles a user action, either picking a card or placing a
card; returns the new state and whether one or more cards moved. -/
def Logic.Interact (l : Logic) (pick : Nat) : Logic × Bool :=
  if !(l.canInteract pick) then
    let previousPick := l.selected
    let l1 := l.clearSelected
    if !(pick == previousPick) then
      if isCard pick && l1.canInteract pick then ({ l1 with selected := pick }, false)
      else (l1, false)
    else (l1, false)
  else if l.isSelectionActive then
    let s := getCard l.selected
    let seq := l.GetSelected
    let l1 := l.clearSelected
    l1.placeSelected s seq pick
  else if isCard pick then ({ l with selected := pick }, false)
  else (l, false)

/-- Go `Undo` the most recent move: clear any picked cards and reset the
board to the previous game state. -/
def Logic.Undo (l : Logic) : Logic :=
  let l1 := l.clearSelected
  let pr := l1.moves.undo
  { l1 with board := pr.1, moves := pr.2 }

/-- Go `MoveCount` returns the current number of moves, not counting the
initial board position. -/
def Logic.MoveCount (l : Logic) : Nat :=
  if 0 < l.moves.count then l.moves.count - 1 else 0

/-- the deal loop of `NewGame`: deck position `cid` (0-indexed) is
placed at board location `cid + 8`. -/
def dealLoop (board : List Nat) : List Card → Nat → List Nat
  | [], _ => board
  | c :: rest, cid => dealLoop (board.set c.id (cid + 8)) rest (cid + 1)

/-- Go `NewGame` starts a new game from the given seed: fresh history,
nothing selected, shuffled cards dealt into the cascades, and the
initial board recorded as the first snapshot. -/
def Logic.NewGame (l : Logic) (seed : Nat) : Logic :=
  let dealt := shuffle seed deckList
  let board2 := dealLoop l.board dealt 0
  { l with gameSeed := seed, selected := NO_CARD, deal := dealt,
           board := board2, moves := Moves.reset.record board2 }

/-- the zero-value `logic` a session starts from. -/
def initLogic : Logic :=
  { selected := 0, gameSeed := 0, deal := [],
    board := List.replicate 52 0, moves := { stack := [], undos := 0 } }

/-- a fresh session: `NewGame(seed)` on the zero-value state. -/
def newGame (seed : Nat) : Logic := initLogic.NewGame seed

/-! ## AutoMoveCard (`AutoMoveCard` of `logic.go`) -/

/-- the minimum of the four foundation top ranks, or `-1` when any
foundation is still empty. -/
def Logic.autoMinRank (l : Logic) : Int :=
  let fc := getCard (l.cardAt 4)
  let fd := getCard (l.cardAt 5)
  let fh := getCard (l.cardAt 6)
  let fs := getCard (l.cardAt 7)
  if !(fc.id == NO_CARD) && !(fd.id == NO_CARD) && !(fh.id == NO_CARD)
      && !(fs.id == NO_CARD) then
    min (min (min (fc.rank : Int) (fd.rank : Int)) (fh.rank : Int)) (fs.rank : Int)
  else -1

/-- all selectable candidate cards, in scan order: the 4 freecells then
the last card of each of the 8 cascades (some may be empty). -/
def Logic.autoCandidates (l : Logic) : List Card :=
  [ getCard (l.cardAt 0), getCard (l.cardAt 1), getCard (l.cardAt 2), getCard (l.cardAt 3),
    l.lastInCascade 0, l.lastInCascade 1, l.lastInCascade 2, l.lastInCascade 3,
    l.lastInCascade 4, l.lastInCascade 5, l.lastInCascade 6, l.lastInCascade 7 ]

/-- promote candidate `c` onto its foundation slot `boardID`, hiding the
current top foundation card `ftop` (if any), recording the move, and
clearing the selection when the promoted card was selected. -/
def Logic.promote (l : Logic) (ftop : Card) (c : Card) (boardID : Nat) : Logic :=
  let b1 := if !(ftop.id == NO_CARD) then
      l.board.set ftop.id (l.board.getD ftop.id NO_CARD + HIDDEN_CARD)
    else l.board
  let b2 := b1.set c.id boardID
  let l2 := { l with board := b2, moves := l.moves.record b2 }
  if l2.isSelected c.id then l2.clearSelected else l2

/-- the candidate scan of `AutoMoveCard`: skip empty slots and cards
whose rank is neither `minRank+1` nor `minRank+2`, then promote the
first candidate that is next in its suit's foundation. -/
def Logic.autoLoop (l : Logic) (minRank : Int) (fc fd fh fs : Card) :
    List Card → Logic × Bool
  | [] => (l, false)
  | c :: rest =>
    if c.id == NO_CARD then l.autoLoop minRank fc fd fh fs rest
    else if !((c.rank : Int) == minRank + 1) && !((c.rank : Int) == minRank + 2) then
      l.autoLoop minRank fc fd fh fs rest
    else
      let boardID := c.suit + 4
      if c.suit == CLB then
        if isNextInFoundation c.suit fc c then (l.promote fc c boardID, true)
        else l.autoLoop minRank fc fd fh fs rest
      else if c.suit == DMD then
        if isNextInFoundation c.suit fd c then (l.promote fd c boardID, true)
        else l.autoLoop minRank fc fd fh fs rest
      else if c.suit == HRT then
        if isNextInFoundation c.suit fh c then (l.promote fh c boardID, true)
        else l.autoLoop minRank fc fd fh fs rest
      else if c.suit == SPD then
        if isNextInFoundation c.suit fs c then (l.promote fs c boardID, true)
        else l.autoLoop minRank fc fd fh fs rest
      else l.autoLoop minRank fc fd fh fs rest

/-- Go `AutoMoveCard` tries to move one card safely to the foundation;
disabled until the player has made the first move. -/
def Logic.AutoMoveCard (l : Logic) : Logic × Bool :=
  if l.moves.count < 2 then (l, false)
  else
    let fc := getCard (l.cardAt 4)
    let fd := getCard (l.cardAt 5)
    let fh := getCard (l.cardAt 6)
    let fs := getCard (l.cardAt 7)
    l.autoLoop l.autoMinRank fc fd fh fs l.autoCandidates

/-! ## Session traces

A reachable session state is `NewGame(seed)` followed by any sequence of
the public mutating operations. -/

/-- one public mutating operation of a session. -/
inductive Action where
  | act_interact (pick : Nat)
  | act_undo
  | act_auto
deriving DecidableEq, Repr

/-- apply one operation to the session state. -/
def applyAction (l : Logic) : Action → Logic
  | .act_interact p => (l.Interact p).1
  | .act_undo => l.Undo
  | .act_auto => l.AutoMoveCard.1

/-- run a list of operations from a state. -/
def runFrom (l : Logic) : List Action → Logic
  | [] => l
  | a :: rest => runFrom (applyAction l a) rest

/-- the session state after `NewGame(seed)` and the given operations. -/
def runGame (seed : Nat) (acts : List Action) : Logic := runFrom (newGame seed) acts

/-- the number of undos performed along a trace: `Undo` calls that
actually pop a snapshot (an `Undo` on the lone initial snapshot is a
no-op and is not an undo of any move). -/
def undosPerformed (l : Logic) : List Action → Nat
  | [] => 0
  | a :: rest =>
    (match a with
      | .act_undo => if 1 < l.moves.stack.length then 1 else 0
      | _ => 0) + undosPerformed (applyAction l a) rest

/-! ## Structural lemmas about the operations -/

lemma getD_set_self (xs : List Nat) (i v d : Nat) (h : i < xs.length) :
    (xs.set i v).getD i d = v := by
  simp [List.getD, List.getElem?_set_self, h]

lemma getD_set_ne (xs : List Nat) (i j v d : Nat) (h : i ≠ j) :
    (xs.set i v).getD j d = xs.getD j d := by
  simp [List.getD, List.getElem?_set_ne, h]

lemma placeRest_length (s : List Nat) : ∀ (board : List Nat) (prev : Nat),
    (placeRest board s prev).length = board.length := by
  induction s with
  | nil => intro board prev; rfl
  | cons c rest ih => intro board prev; simp [placeRest, ih]

lemma placeSeq_length (board seq : List Nat) (base : Nat) :
    (placeSeq board seq base).length = board.length := by
  cases seq with
  | nil => rfl
  | cons c rest => simp [placeSeq, placeRest_length]

lemma dealLoop_length (cs : List Card) : ∀ (board : List Nat) (n : Nat),
    (dealLoop board cs n).length = board.length := by
  induction cs with
  | nil => intro board n; rfl
  | cons c rest ih => intro board n; simp [dealLoop, ih]

/-- every committed placement either moves nothing or commits a board of
the same length. -/
lemma placeSelected_shape (l : Logic) (s : Card) (seq : List Nat) (pick : Nat) :
    l.placeSelected s seq pick = (l, false) ∨
    ∃ b, l.placeSelected s seq pick = l.commit b ∧ b.length = l.board.length := by
  simp only [Logic.placeSelected]
  split_ifs <;>
    first
      | (left; rfl)
      | (right; exact ⟨_, rfl, by simp [List.length_set, placeSeq_length]⟩)

lemma commit_snd (l : Logic) (b : List Nat) : (l.commit b).2 = true := rfl

/-- Go `Interact` either moves nothing (board and history untouched) or
commits exactly one snapshot: the new board, appended to the stack, with
the undo counter unchanged and the selection cleared. -/
lemma Interact_shape (l : Logic) (pick : Nat) :
    ((l.Interact pick).2 = false ∧ (l.Interact pick).1.board = l.board ∧
      (l.Interact pick).1.moves = l.moves) ∨
    ((l.Interact pick).2 = true ∧
      (l.Interact pick).1.moves.stack = l.moves.stack ++ [(l.Interact pick).1.board] ∧
      (l.Interact pick).1.moves.undos = l.moves.undos ∧
      (l.Interact pick).1.selected = NO_CARD ∧
      (l.Interact pick).1.board.length = l.board.length) := by
  simp only [Logic.Interact]
  split_ifs with h1 h2 h3 h4 h5 <;>
    try (left; exact ⟨rfl, rfl, rfl⟩)
  rcases placeSelected_shape l.clearSelected (getCard l.selected) l.GetSelected pick with
    h | ⟨b, hb, hlen⟩
  · rw [h]; left; exact ⟨rfl, rfl, rfl⟩
  · rw [hb]; right
    refine ⟨rfl, ?_, rfl, rfl, ?_⟩
    · simp [Logic.commit, Moves.record, Logic.clearSelected]
    · simpa [Logic.commit, Logic.clearSelected] using hlen

/-- the two behaviors of `Undo`: pop (more than one snapshot) or keep
the lone snapshot; in both cases the selection is cleared. -/
lemma Undo_shape (l : Logic) :
    (1 < l.moves.stack.length ∧
      l.Undo = { l with
                 selected := NO_CARD
                 board := l.moves.stack.dropLast.getLastD []
                 moves := { stack := l.moves.stack.dropLast
                            undos := l.moves.undos + 1 } }) ∨
    (¬ 1 < l.moves.stack.length ∧
      l.Undo = { l with
                 selected := NO_CARD
                 board := l.moves.stack.getLastD [] }) := by
  simp only [Logic.Undo, Moves.undo, Logic.clearSelected]
  split_ifs with h
  · left; exact ⟨h, rfl⟩
  · right; exact ⟨h, rfl⟩

lemma promote_shape (l : Logic) (ftop c : Card) (boardID : Nat) :
    (l.promote ftop c boardID).moves.stack
        = l.moves.stack ++ [(l.promote ftop c boardID).board] ∧
    (l.promote ftop c boardID).moves.undos = l.moves.undos ∧
    (l.promote ftop c boardID).board.length = l.board.length := by
  simp only [Logic.promote]
  split_ifs <;> (try split_ifs) <;>
    simp [Moves.record, Logic.clearSelected, List.length_set]

/-- one step of the candidate scan: skip the head or promote it. -/
lemma autoLoop_cons (l : Logic) (minRank : Int) (fc fd fh fs c : Card) (rest : List Card) :
    l.autoLoop minRank fc fd fh fs (c :: rest) = l.autoLoop minRank fc fd fh fs rest ∨
    ∃ ft, l.autoLoop minRank fc fd fh fs (c :: rest) = (l.promote ft c (c.suit + 4), true) := by
  simp only [Logic.autoLoop]
  split_ifs <;> first | (left; rfl) | (right; exact ⟨_, rfl⟩)

/-- the candidate scan either skips every candidate or promotes one,
recording exactly one snapshot. -/
lemma autoLoop_shape (l : Logic) (minRank : Int) (fc fd fh fs : Card) (cs : List Card) :
    l.autoLoop minRank fc fd fh fs cs = (l, false) ∨
    ((l.autoLoop minRank fc fd fh fs cs).2 = true ∧
      (l.autoLoop minRank fc fd fh fs cs).1.moves.stack
        = l.moves.stack ++ [(l.autoLoop minRank fc fd fh fs cs).1.board] ∧
      (l.autoLoop minRank fc fd fh fs cs).1.moves.undos = l.moves.undos ∧
      (l.autoLoop minRank fc fd fh fs cs).1.board.length = l.board.length) := by
  induction cs with
  | nil => left; rfl
  | cons c rest ih =>
    rcases autoLoop_cons l minRank fc fd fh fs c rest with h | ⟨ft, h⟩
    · rw [h]; exact ih
    · rw [h]; right
      exact ⟨rfl, (promote_shape l ft c (c.suit + 4)).1,
        (promote_shape l ft c (c.suit + 4)).2.1,
        (promote_shape l ft c (c.suit + 4)).2.2⟩

lemma AutoMoveCard_shape (l : Logic) :
    l.AutoMoveCard = (l, false) ∨
    ((l.AutoMoveCard).2 = true ∧
      (l.AutoMoveCard).1.moves.stack = l.moves.stack ++ [(l.AutoMoveCard).1.board] ∧
      (l.AutoMoveCard).1.moves.undos = l.moves.undos ∧
      (l.AutoMoveCard).1.board.length = l.board.length) := by
  unfold Logic.AutoMoveCard
  split_ifs
  · left; rfl
  · exact autoLoop_shape l l.autoMinRank _ _ _ _ l.autoCandidates

/-! ## The reachable-state invariant -/

/-- invariant of every reachable session state: the current board is the
top history snapshot and every snapshot is a 52-element array. -/
def StackInv (l : Logic) : Prop :=
  l.moves.stack.getLast? = some l.board ∧ ∀ b ∈ l.moves.stack, b.length = 52

lemma mem_of_getLast?_some {α : Type} {xs : List α} {a : α}
    (h : xs.getLast? = some a) : a ∈ xs := by
  induction xs with
  | nil => simp at h
  | cons x t ih =>
    cases t with
    | nil =>
      simp only [List.getLast?_singleton, Option.some.injEq] at h
      simp [h]
    | cons y u =>
      rw [List.getLast?_cons_cons] at h
      exact List.mem_cons_of_mem x (ih h)

lemma newGame_moves (seed : Nat) :
    (newGame seed).moves = { stack := [(newGame seed).board], undos := 0 } := by
  simp [newGame, Logic.NewGame, Moves.record, Moves.reset]

lemma newGame_board_length (seed : Nat) : (newGame seed).board.length = 52 := by
  simp [newGame, Logic.NewGame, dealLoop_length, initLogic]

lemma newGame_inv (seed : Nat) : StackInv (newGame seed) := by
  constructor
  · rw [newGame_moves seed]; rfl
  · intro b hb
    rw [newGame_moves seed] at hb
    simp only [List.mem_singleton] at hb
    rw [hb]
    exact newGame_board_length seed

lemma stackInv_board_length (l : Logic) (h : StackInv l) : l.board.length = 52 :=
  h.2 l.board (mem_of_getLast?_some h.1)

lemma Interact_inv (l : Logic) (pick : Nat) (h : StackInv l) :
    StackInv (l.Interact pick).1 := by
  rcases Interact_shape l pick with ⟨_, hb, hm⟩ | ⟨_, hst, _, _, hlen⟩
  · constructor
    · rw [hm, hb]; exact h.1
    · rw [hm]; exact h.2
  · constructor
    · rw [hst]; exact List.getLast?_concat _
    · rw [hst]
      intro b hb
      rcases List.mem_append.1 hb with hb | hb
      · exact h.2 b hb
      · rw [List.mem_singleton.1 hb, hlen, stackInv_board_length l h]

lemma Undo_inv (l : Logic) (h : StackInv l) : StackInv l.Undo := by
  rcases Undo_shape l with ⟨hlen, heq⟩ | ⟨hlen, heq⟩
  · rw [heq]
    have hne : l.moves.stack.dropLast ≠ [] := by
      intro hnil
      have := congrArg List.length hnil
      simp [List.length_dropLast] at this
      omega
    constructor
    · simp only []
      rw [List.getLastD_eq_getLast?]
      cases hlast : l.moves.stack.dropLast.getLast? with
      | none => exact absurd (List.getLast?_eq_none_iff.1 hlast) hne
      | some a => rfl
    · intro b hb
      exact h.2 b (List.dropLast_subset _ hb)
  · rw [heq]
    constructor
    · simp only []
      rw [List.getLastD_eq_getLast?, h.1]
      rfl
    · exact h.2

lemma AutoMoveCard_inv (l : Logic) (h : StackInv l) : StackInv l.AutoMoveCard.1 := by
  rcases AutoMoveCard_shape l with heq | ⟨_, hst, _, hlen⟩
  · rw [heq]; exact h
  · constructor
    · rw [hst]; exact List.getLast?_concat _
    · rw [hst]
      intro b hb
      rcases List.mem_append.1 hb with hb | hb
      · exact h.2 b hb
      · rw [List.mem_singleton.1 hb, hlen, stackInv_board_length l h]

lemma applyAction_inv (l : Logic) (a : Action) (h : StackInv l) :
    StackInv (applyAction l a) := by
  cases a with
  | act_interact p => exact Interact_inv l p h
  | act_undo => exact Undo_inv l h
  | act_auto => exact AutoMoveCard_inv l h

lemma runFrom_inv (acts : List Action) : ∀ (l : Logic), StackInv l →
    StackInv (runFrom l acts) := by
  induction acts with
  | nil => intro l h; exact h
  | cons a rest ih => intro l h; exact ih (applyAction l a) (applyAction_inv l a h)

lemma runGame_inv (seed : Nat) (acts : List Action) : StackInv (runGame seed acts) :=
  runFrom_inv acts (newGame seed) (newGame_inv seed)

/-! ## Undo-counter accounting -/

lemma Interact_undos (l : Logic) (p : Nat) :
    (l.Interact p).1.moves.undos = l.moves.undos := by
  rcases Interact_shape l p with ⟨_, _, hm⟩ | ⟨_, _, hu, _, _⟩
  · rw [hm]
  · exact hu

lemma AutoMoveCard_undos (l : Logic) :
    l.AutoMoveCard.1.moves.undos = l.moves.undos := by
  rcases AutoMoveCard_shape l with heq | ⟨_, _, hu, _⟩
  · rw [heq]
  · exact hu

lemma Undo_undos (l : Logic) :
    l.Undo.moves.undos
      = l.moves.undos + (if 1 < l.moves.stack.length then 1 else 0) := by
  rcases Undo_shape l with ⟨h, heq⟩ | ⟨h, heq⟩ <;> rw [heq] <;> simp [h]

lemma applyAction_undos (l : Logic) (a : Action) :
    (applyAction l a).moves.undos
      = l.moves.undos + (match a with
          | .act_undo => if 1 < l.moves.stack.length then 1 else 0
          | _ => 0) := by
  cases a with
  | act_interact p => simpa using Interact_undos l p
  | act_undo => exact Undo_undos l
  | act_auto => simpa using AutoMoveCard_undos l

lemma runFrom_undos (acts : List Action) : ∀ l : Logic,
    (runFrom l acts).moves.undos = l.moves.undos + undosPerformed l acts := by
  induction acts with
  | nil => intro l; simp [runFrom, undosPerformed]
  | cons a rest ih =>
    intro l
    cases a <;>
      (simp only [runFrom, undosPerformed, ih, applyAction_undos]; omega)

lemma MoveCount_eq (l : Logic) : l.MoveCount = l.moves.count - 1 := by
  unfold Logic.MoveCount
  split_ifs <;> omega

/-! ## Claim C2: the movable-stack-size formula -/

/-- the capacity formula as worded in the specification: `F` empty
freecells, `E` empty cascades counted before consuming the destination;
`E' = E - 1` when the target is itself an empty cascade. -/
def movableCapacitySpec (F E : Nat) (targetIsEmptyCascade : Bool) : Nat :=
  if E = 0 then F + 1
  else
    let ec := if targetIsEmptyCascade then E - 1 else E
    if 0 < ec then 2 * (F + 1 + (ec - 1)) else F + 1

/-- C2: for every board state, `movableStackSize` satisfies the exact
capacity formula of the specification, with `F` the number of empty
freecells and `E` the number of empty cascades. -/
theorem movableStackSize_formula (l : Logic) (used : Bool) :
    l.movableStackSize used
      = movableCapacitySpec l.emptyFreeCells l.emptyCascades used := by
  simp only [Logic.movableStackSize, movableCapacitySpec]
  split_ifs <;> omega

/-! ## Claim C3: the history count -/

/-- C3: at every reachable session state, the history's internal count
equals the stack length plus twice the number of undos performed, and
`MoveCount()` is that count minus 1, floored at 0 (truncated Nat
subtraction). -/
theorem count_eq_stack_plus_undos (seed : Nat) (acts : List Action) :
    (runGame seed acts).moves.count
        = (runGame seed acts).moves.stack.length
            + 2 * undosPerformed (newGame seed) acts ∧
    (runGame seed acts).MoveCount = (runGame seed acts).moves.count - 1 := by
  constructor
  · have h := runFrom_undos acts (newGame seed)
    have h0 : (newGame seed).moves.undos = 0 := by rw [newGame_moves seed]
    simp only [runGame] at *
    unfold Moves.count
    omega
  · exact MoveCount_eq (runGame seed acts)

/-! ## Claim C5: Interact then Undo restores the board -/

lemma stack_ne_nil_of_inv (l : Logic) (h : StackInv l) : l.moves.stack ≠ [] := by
  intro hnil
  have hl := h.1
  rw [hnil] at hl
  exact Option.noConfusion hl

lemma undo_after_commit (l : Logic) (pick : Nat) (hInv : StackInv l)
    (h : (l.Interact pick).2 = true) :
    (l.Interact pick).1.Undo.board = l.board := by
  rcases Interact_shape l pick with ⟨hf, _, _⟩ | ⟨_, hst, _, _, _⟩
  · rw [hf] at h; cases h
  · have hpos : 0 < l.moves.stack.length :=
      List.length_pos.2 (stack_ne_nil_of_inv l hInv)
    have hlen : 1 < (l.Interact pick).1.moves.stack.length := by
      rw [hst, List.length_append]
      simp only [List.length_singleton]
      omega
    rcases Undo_shape (l.Interact pick).1 with ⟨_, heq⟩ | ⟨hn, _⟩
    · rw [heq]
      simp only []
      rw [hst, List.dropLast_concat, List.getLastD_eq_getLast?, hInv.1]
      rfl
    · exact absurd hlen hn

/-- C5: for every reachable session state and every pick, if
`Interact(pick)` commits a move then an immediate `Undo()` restores the
52-element board array to exactly its value before the `Interact`. -/
theorem interact_then_undo_restores (seed : Nat) (acts : List Action) (pick : Nat)
    (h : ((runGame seed acts).Interact pick).2 = true) :
    ((runGame seed acts).Interact pick).1.Undo.board = (runGame seed acts).board :=
  undo_after_commit (runGame seed acts) pick (runGame_inv seed acts) h

/-! ## Claim C8: the history stack is never empty -/

/-- C8: after `NewGame` the history always contains at least one
snapshot, through every sequence of operations; and `Undo` pops only
when more than one snapshot remains (so it never removes the last
one). -/
theorem history_never_empty :
    (∀ (seed : Nat) (acts : List Action),
      1 ≤ (runGame seed acts).moves.stack.length) ∧
    (∀ l : Logic, l.Undo.moves.stack.length
        = if 1 < l.moves.stack.length then l.moves.stack.length - 1
          else l.moves.stack.length) := by
  constructor
  · intro seed acts
    exact List.length_pos.2 (stack_ne_nil_of_inv _ (runGame_inv seed acts))
  · intro l
    rcases Undo_shape l with ⟨h, heq⟩ | ⟨h, heq⟩ <;> rw [heq] <;>
      simp [h, List.length_dropLast]

/-! ## Claim C9: invalid picks are safe no-ops -/

/-- C9: for every session state and every pick value that is neither a
card id (0-51) nor an empty-pile pseudo-id (100-115), `Interact(pick)`
reports no card moved and leaves the board array and the move history
unchanged. -/
theorem invalid_pick_noop (l : Logic) (pick : Nat) (h1 : 51 < pick)
    (h2 : ¬(100 ≤ pick ∧ pick ≤ 115)) :
    (l.Interact pick).2 = false ∧ (l.Interact pick).1.board = l.board ∧
    (l.Interact pick).1.moves = l.moves := by
  have hcard : isCard pick = false := by
    simp only [isCard, decide_eq_false_iff_not]
    omega
  have hci : ∀ l2 : Logic, l2.canInteract pick = false := by
    intro l2
    unfold Logic.canInteract
    split_ifs with hs
    · simp [Logic.canPlaceCard, h2, hcard]
    · simp [Logic.canSelectCard, hcard]
  simp only [Logic.Interact, hci, Bool.not_false, if_true]
  split_ifs <;> simp_all [Logic.clearSelected]

/-! ## Claim C10: Undo with only the initial snapshot is a no-op -/

lemma undo_on_lone_snapshot (l : Logic) (h1 : l.moves.stack = [l.board]) :
    l.Undo = { l with selected := NO_CARD } := by
  rcases Undo_shape l with ⟨hl, _⟩ | ⟨_, heq⟩
  · rw [h1] at hl; simp at hl
  · rw [heq, h1]
    rfl

/-- C10: if the history stack holds only the initial deal snapshot (and
no undo has been counted), `Undo()` leaves the board array and the undo
counter unchanged, `MoveCount()` stays 0, and the only effect is
clearing the selection — for any number of repeated `Undo` calls. -/
theorem undo_on_initial_noop (l : Logic) (h1 : l.moves.stack = [l.board])
    (h2 : l.moves.undos = 0) (n : Nat) :
    ((Logic.Undo)^[n] l).board = l.board ∧
    ((Logic.Undo)^[n] l).moves = l.moves ∧
    ((Logic.Undo)^[n] l).MoveCount = 0 ∧
    (1 ≤ n → ((Logic.Undo)^[n] l).selected = NO_CARD) := by
  have hcount : l.moves.count = 1 := by
    unfold Moves.count
    rw [h1, h2]
    rfl
  have hstep : ∀ m : Nat, (Logic.Undo)^[m + 1] l = { l with selected := NO_CARD } := by
    intro m
    induction m with
    | zero => simpa using undo_on_lone_snapshot l h1
    | succ k ih =>
      rw [Function.iterate_succ_apply', ih]
      have : ({ l with selected := NO_CARD } : Logic).moves.stack
          = [({ l with selected := NO_CARD } : Logic).board] := h1
      rw [undo_on_lone_snapshot _ this]
  cases n with
  | zero =>
    refine ⟨rfl, rfl, ?_, by omega⟩
    simp only [Function.iterate_zero, id_eq]
    rw [MoveCount_eq, hcount]
  | succ m =>
    rw [hstep m]
    refine ⟨rfl, rfl, ?_, fun _ => rfl⟩
    rw [MoveCount_eq]
    have : ({ l with selected := NO_CARD } : Logic).moves.count = 1 := hcount
    rw [this]

/-! ## Claim C4 (corrected): MoveCount across move, undo, redo -/

lemma commit_stack_growth (l : Logic) (p : Nat) (h : (l.Interact p).2 = true) :
    (l.Interact p).1.moves.stack.length = l.moves.stack.length + 1 ∧
    (l.Interact p).1.moves.undos = l.moves.undos := by
  rcases Interact_shape l p with ⟨hf, _, _⟩ | ⟨_, hst, hu, _, _⟩
  · rw [hf] at h; cases h
  · constructor
    · rw [hst, List.length_append, List.length_singleton]
    · exact hu

lemma undo_pop_counts (l : Logic) (h : 1 < l.moves.stack.length) :
    l.Undo.moves.stack.length = l.moves.stack.length - 1 ∧
    l.Undo.moves.undos = l.moves.undos + 1 := by
  rcases Undo_shape l with ⟨_, heq⟩ | ⟨hn, _⟩
  · rw [heq]
    simp [List.length_dropLast]
  · exact absurd h hn

/-- C4 counterexample: in the game with seed 1, selecting the bottom
card of cascade 0 (card 23) and placing it in freecell 0 is a
successful `Interact` move; `MoveCount()` is then 1, but after one
`Undo()` it is 2, not 0 as the claim states. -/
theorem moveCount_undo_counterexample :
    ((runGame 1 [Action.act_interact 23]).Interact 100).2 = true ∧
    (newGame 1).MoveCount = 0 ∧
    ((runGame 1 [Action.act_interact 23]).Interact 100).1.MoveCount = 1 ∧
    ((runGame 1 [Action.act_interact 23]).Interact 100).1.Undo.MoveCount = 2 ∧
    ¬(((runGame 1 [Action.act_interact 23]).Interact 100).1.Undo.MoveCount = 0) := by
  refine ⟨?_, ?_, ?_, ?_, ?_⟩ <;> decide

/-- C4 (amended): `MoveCount()` is 0 immediately after `NewGame`; after
one successful `Interact` move it is 1; after that move plus one `Undo`
it is 2 (each undo adds two to the internal count while removing one
snapshot); and after redoing the same move it is 3. -/
theorem moveCount_scenario_amended (seed : Nat) (l0 l1 : Logic) (p q : Nat)
    (h1 : l0.moves.stack.length = 1) (h2 : l0.moves.undos = 0)
    (h3 : (l0.Interact p).2 = true)
    (h4 : l1.moves.stack.length = 1) (h5 : l1.moves.undos = 1)
    (h6 : (l1.Interact q).2 = true) :
    (newGame seed).MoveCount = 0 ∧
    (l0.Interact p).1.MoveCount = 1 ∧
    (l0.Interact p).1.Undo.MoveCount = 2 ∧
    (l1.Interact q).1.MoveCount = 3 := by
  have hng : (newGame seed).MoveCount = 0 := by
    rw [MoveCount_eq, Moves.count, newGame_moves seed]
    rfl
  obtain ⟨g1, g2⟩ := commit_stack_growth l0 p h3
  have hlen2 : 1 < (l0.Interact p).1.moves.stack.length := by omega
  obtain ⟨u1, u2⟩ := undo_pop_counts (l0.Interact p).1 hlen2
  obtain ⟨r1, r2⟩ := commit_stack_growth l1 q h6
  refine ⟨hng, ?_, ?_, ?_⟩ <;> rw [MoveCount_eq, Moves.count] <;> omega

/-! ## Claim C7: foundation placements bury the previous top -/

lemma deckList_getD_id : ∀ x < 52, (deckList.getD x InvalidCard).id = x := by decide

lemma getCard_id (x : Nat) (h : isCard x = true) : (getCard x).id = x := by
  have hx : x ≤ 51 := by simpa [isCard] using h
  unfold getCard
  rw [if_pos h]
  exact deckList_getD_id x (by omega)

lemma isFoundation_not_cascade (b : Nat) (h : isFoundation b = true) :
    isCascade b = false := by
  simp only [isFoundation, decide_eq_true_eq] at h
  simp only [isCascade, MAX_BOARD_ID, decide_eq_false_iff_not]
  omega

lemma Interact_false_of_not_canInteract (l : Logic) (pick : Nat)
    (hc : l.canInteract pick = false) : (l.Interact pick).2 = false := by
  simp only [Logic.Interact, hc, Bool.not_false, if_true]
  split_ifs <;> rfl

lemma Interact_place_eq (l : Logic) (pick : Nat) (hc : l.canInteract pick = true)
    (hsel : l.isSelectionActive = true) :
    l.Interact pick
      = l.clearSelected.placeSelected (getCard l.selected) l.GetSelected pick := by
  simp only [Logic.Interact, hc, Bool.not_true, hsel]
  rw [if_neg Bool.false_ne_true, if_pos trivial]

lemma foundation_burial_aux (l : Logic) (pick : Nat) (hInv : StackInv l)
    (hsel : l.isSelectionActive = true) (hcard : isCard pick = true)
    (hfound : isFoundation (l.board.getD pick NO_CARD) = true)
    (hmv : (l.Interact pick).2 = true) :
    (l.Interact pick).1.board.getD pick NO_CARD
        = l.board.getD pick NO_CARD + HIDDEN_CARD ∧
    (l.Interact pick).1.board.getD l.selected NO_CARD
        = l.board.getD pick NO_CARD ∧
    (l.Interact pick).1.Undo.board.getD pick NO_CARD
        = l.board.getD pick NO_CARD := by
  have hple : pick ≤ 51 := by simpa [isCard] using hcard
  have hsle : l.selected ≤ 51 := by simpa [Logic.isSelectionActive, isCard] using hsel
  have hrestore := undo_after_commit l pick hInv hmv
  cases hc : l.canInteract pick with
  | false =>
    rw [Interact_false_of_not_canInteract l pick hc] at hmv
    cases hmv
  | true =>
    have hIa := Interact_place_eq l pick hc hsel
    rw [hIa] at hmv hrestore ⊢
    have hnp : ¬(100 ≤ pick ∧ pick ≤ 115) := by omega
    have hbp : l.clearSelected.board = l.board := rfl
    simp only [Logic.placeSelected, hnp, if_false, hcard, if_true, hbp, hfound,
      Bool.true_and] at hmv hrestore ⊢
    cases hlen : (l.GetSelected.length == 1) with
    | false =>
      simp only [hlen, Bool.false_eq_true, if_false,
        isFoundation_not_cascade _ hfound, Bool.false_eq_true] at hmv
    | true =>
      simp only [hlen, if_true] at hmv hrestore ⊢
      cases hrk : ((getCard l.selected).rank == (getCard pick).rank + 1) with
      | false =>
        simp only [hrk, Bool.false_eq_true, if_false] at hmv
      | true =>
        simp only [hrk, if_true] at hmv hrestore ⊢
        have hlength : l.board.length = 52 := stackInv_board_length l hInv
        have hpid : (getCard pick).id = pick := getCard_id pick hcard
        have hsid : (getCard l.selected).id = l.selected := getCard_id l.selected hsel
        have hne : l.selected ≠ pick := by
          intro he
          rw [he] at hrk
          have heq : (getCard pick).rank = (getCard pick).rank + 1 := by
            simpa using hrk
          omega
        refine ⟨?_, ?_, ?_⟩
        · simp only [Logic.commit, Logic.clearSelected]
          rw [hpid, hsid, getD_set_ne _ _ _ _ _ hne,
            getD_set_self _ _ _ _ (by rw [hlength]; omega)]
        · simp only [Logic.commit, Logic.clearSelected]
          rw [hpid, hsid,
            getD_set_self _ _ _ _ (by rw [List.length_set, hlength]; omega)]
        · rw [hrestore]

/-- C7: whenever `Interact` places the selected card onto a visible
foundation top card `p`, the new board maps `p` to its previous
location plus 9999 (the hidden marker) and maps the selected card to
that foundation's slot value; an `Undo` afterwards makes `p` visible
again at its original foundation location. -/
theorem foundation_burial (seed : Nat) (acts : List Action) (pick : Nat)
    (hsel : (runGame seed acts).isSelectionActive = true)
    (hcard : isCard pick = true)
    (hfound : isFoundation ((runGame seed acts).board.getD pick NO_CARD) = true)
    (hmv : ((runGame seed acts).Interact pick).2 = true) :
    ((runGame seed acts).Interact pick).1.board.getD pick NO_CARD
        = (runGame seed acts).board.getD pick NO_CARD + HIDDEN_CARD ∧
    ((runGame seed acts).Interact pick).1.board.getD
        ((runGame seed acts).selected) NO_CARD
        = (runGame seed acts).board.getD pick NO_CARD ∧
    ((runGame seed acts).Interact pick).1.Undo.board.getD pick NO_CARD
        = (runGame seed acts).board.getD pick NO_CARD :=
  foundation_burial_aux (runGame seed acts) pick (runGame_inv seed acts)
    hsel hcard hfound hmv

/-! ## Claim C6: characterization of AutoMoveCard

Spec-side definitions, from the claim's words: a candidate is eligible
when it is a real card whose rank is `minRank+1` or `minRank+2` and
which is the correct next card for its suit's foundation; the first
eligible candidate in the fixed scan order is promoted. -/

/-- eligibility of a candidate for auto-promotion, per the spec. -/
def autoEligible (l : Logic) (minRank : Int) (c : Card) : Bool :=
  !(c.id == NO_CARD) &&
  (((c.rank : Int) == minRank + 1) || ((c.rank : Int) == minRank + 2)) &&
  isNextInFoundation c.suit (getCard (l.cardAt (c.suit + 4))) c

/-- the promotion the spec describes: bury the candidate's suit's
current foundation top and put the candidate on that foundation slot. -/
def promoteSpec (l : Logic) (c : Card) : Logic :=
  l.promote (getCard (l.cardAt (c.suit + 4))) c (c.suit + 4)

lemma deckList_getD_suit : ∀ x < 52, (deckList.getD x InvalidCard).suit ≤ 3 := by decide

lemma getCard_shape (x : Nat) : (getCard x).id = NO_CARD ∨ (getCard x).suit ≤ 3 := by
  unfold getCard
  split_ifs with h
  · right
    have hx : x ≤ 51 := by simpa [isCard] using h
    exact deckList_getD_suit x (by omega)
  · left; rfl

lemma lastInCascade_shape (l : Logic) (k : Nat) :
    (l.lastInCascade k).id = NO_CARD ∨ (l.lastInCascade k).suit ≤ 3 := by
  unfold Logic.lastInCascade
  set r := (List.range 52).find? (fun cid =>
    l.isLastInCascade cid && (k == l.board.getD cid NO_CARD % 8)) with hr
  cases hrr : r with
  | none => left; rfl
  | some cid =>
    right
    have hm := List.mem_of_find?_eq_some (hr ▸ hrr)
    exact deckList_getD_suit cid (List.mem_range.1 hm)

lemma autoCandidates_shape (l : Logic) :
    ∀ c ∈ l.autoCandidates, c.id = NO_CARD ∨ c.suit ≤ 3 := by
  intro c hc
  simp only [Logic.autoCandidates, List.mem_cons, List.not_mem_nil, or_false] at hc
  rcases hc with rfl | rfl | rfl | rfl | rfl | rfl | rfl | rfl | rfl | rfl | rfl | rfl
  exacts [getCard_shape _, getCard_shape _, getCard_shape _, getCard_shape _,
    lastInCascade_shape _ _, lastInCascade_shape _ _, lastInCascade_shape _ _,
    lastInCascade_shape _ _, lastInCascade_shape _ _, lastInCascade_shape _ _,
    lastInCascade_shape _ _, lastInCascade_shape _ _]

lemma autoLoop_eq_find (l : Logic) (minRank : Int) :
    ∀ cs : List Card, (∀ c ∈ cs, c.id = NO_CARD ∨ c.suit ≤ 3) →
    l.autoLoop minRank (getCard (l.cardAt 4)) (getCard (l.cardAt 5))
        (getCard (l.cardAt 6)) (getCard (l.cardAt 7)) cs
      = match cs.find? (autoEligible l minRank) with
        | some c => (promoteSpec l c, true)
        | none => (l, false) := by
  intro cs
  induction cs with
  | nil => intro _; rfl
  | cons c rest ih =>
    intro hcs
    have ihr := ih (fun y hy => hcs y (List.mem_cons_of_mem c hy))
    by_cases h1 : (c.id == NO_CARD) = true
    · have he : autoEligible l minRank c = false := by simp [autoEligible, h1]
      rw [List.find?_cons_of_neg _ (by simp [he])]
      have hL : l.autoLoop minRank (getCard (l.cardAt 4)) (getCard (l.cardAt 5))
          (getCard (l.cardAt 6)) (getCard (l.cardAt 7)) (c :: rest)
          = l.autoLoop minRank (getCard (l.cardAt 4)) (getCard (l.cardAt 5))
            (getCard (l.cardAt 6)) (getCard (l.cardAt 7)) rest := by
        simp only [Logic.autoLoop]
        rw [if_pos h1]
      rw [hL, ihr]
    · by_cases h2 : (!((c.rank : Int) == minRank + 1)
          && !((c.rank : Int) == minRank + 2)) = true
      · have h2' : ((c.rank : Int) == minRank + 1) = false
            ∧ ((c.rank : Int) == minRank + 2) = false := by
          revert h2
          cases ((c.rank : Int) == minRank + 1) <;>
            cases ((c.rank : Int) == minRank + 2) <;> simp
        have he : autoEligible l minRank c = false := by
          simp [autoEligible, h2'.1, h2'.2]
        rw [List.find?_cons_of_neg _ (by simp [he])]
        have hL : l.autoLoop minRank (getCard (l.cardAt 4)) (getCard (l.cardAt 5))
            (getCard (l.cardAt 6)) (getCard (l.cardAt 7)) (c :: rest)
            = l.autoLoop minRank (getCard (l.cardAt 4)) (getCard (l.cardAt 5))
              (getCard (l.cardAt 6)) (getCard (l.cardAt 7)) rest := by
          simp only [Logic.autoLoop]
          rw [if_neg h1, if_pos h2]
        rw [hL, ihr]
      · have hrank : (((c.rank : Int) == minRank + 1)
            || ((c.rank : Int) == minRank + 2)) = true := by
          revert h2
          cases ((c.rank : Int) == minRank + 1) <;>
            cases ((c.rank : Int) == minRank + 2) <;> simp
        have hid : ¬(c.id = NO_CARD) := by simpa using h1
        have hsuit : c.suit ≤ 3 :=
          (hcs c (List.mem_cons_self c rest)).resolve_left hid
        by_cases h5 : isNextInFoundation c.suit (getCard (l.cardAt (c.suit + 4))) c = true
        · have he : autoEligible l minRank c = true := by
            simp only [autoEligible, Bool.and_eq_true]
            refine ⟨⟨?_, hrank⟩, h5⟩
            revert h1
            cases (c.id == NO_CARD) <;> simp
          rw [List.find?_cons_of_pos _ he]
          simp only [promoteSpec, Logic.autoLoop]
          rw [if_neg h1, if_neg h2]
          rcases (show c.suit = 0 ∨ c.suit = 1 ∨ c.suit = 2 ∨ c.suit = 3 by omega)
            with h4 | h4 | h4 | h4 <;>
            (rw [h4] at h5 ⊢; simp [CLB, DMD, HRT, SPD, h5])
        · have h5f : isNextInFoundation c.suit (getCard (l.cardAt (c.suit + 4))) c
              = false := by
            revert h5
            cases (isNextInFoundation c.suit (getCard (l.cardAt (c.suit + 4))) c) <;> simp
          have he : autoEligible l minRank c = false := by
            simp [autoEligible, h5f]
          rw [List.find?_cons_of_neg _ (by simp [he])]
          have hL : l.autoLoop minRank (getCard (l.cardAt 4)) (getCard (l.cardAt 5))
              (getCard (l.cardAt 6)) (getCard (l.cardAt 7)) (c :: rest)
              = l.autoLoop minRank (getCard (l.cardAt 4)) (getCard (l.cardAt 5))
                (getCard (l.cardAt 6)) (getCard (l.cardAt 7)) rest := by
            simp only [Logic.autoLoop]
            rw [if_neg h1, if_neg h2]
            rcases (show c.suit = 0 ∨ c.suit = 1 ∨ c.suit = 2 ∨ c.suit = 3 by omega)
              with h4 | h4 | h4 | h4 <;>
              (rw [h4] at h5f ⊢; simp [CLB, DMD, HRT, SPD, h5f])
          rw [hL, ihr]

/-- C6: in every state where `AutoMoveCard` is enabled (the player has
moved at least once, i.e. the history count is at least 2), the call
promotes exactly the first candidate of the fixed 12-candidate scan
order whose rank is `minRank+1` or `minRank+2` and which is next for
its suit's foundation — burying that foundation's previous top,
recording one snapshot, and clearing a matching selection — returning
true; with no eligible candidate it changes nothing and returns
false. -/
theorem autoMoveCard_characterization (l : Logic) (h : 2 ≤ l.moves.count) :
    l.AutoMoveCard
      = match l.autoCandidates.find? (autoEligible l l.autoMinRank) with
        | some c => (promoteSpec l c, true)
        | none => (l, false) := by
  have hlt : ¬(l.moves.count < 2) := by omega
  simp only [Logic.AutoMoveCard]
  rw [if_neg hlt]
  exact autoLoop_eq_find l l.autoMinRank l.autoCandidates (autoCandidates_shape l)

/-! ## Witnesses for the theorems with hypotheses -/

/-- witness for C5: in the seed-1 game, after selecting card 23 (the
bottom of cascade 0), placing it in freecell 0 commits a move and the
undo restores the deal board. -/
theorem interact_then_undo_restores_witness :
    ((runGame 1 [Action.act_interact 23]).Interact 100).2 = true ∧
    ((runGame 1 [Action.act_interact 23]).Interact 100).1.Undo.board
        = (runGame 1 [Action.act_interact 23]).board :=
  ⟨by decide, interact_then_undo_restores 1 [Action.act_interact 23] 100 (by decide)⟩

/-- witness for C9: pick 99 is neither a card id nor an empty-pile id,
and `Interact 99` on a fresh game is a safe no-op. -/
theorem invalid_pick_noop_witness :
    51 < 99 ∧ ¬(100 ≤ 99 ∧ 99 ≤ 115) ∧
    (((newGame 0).Interact 99).2 = false ∧
      ((newGame 0).Interact 99).1.board = (newGame 0).board ∧
      ((newGame 0).Interact 99).1.moves = (newGame 0).moves) :=
  ⟨by decide, by decide, invalid_pick_noop (newGame 0) 99 (by decide) (by decide)⟩

/-- witness for C10: a fresh seed-7 game has only the initial snapshot,
and two repeated undos change nothing but the selection. -/
theorem undo_on_initial_noop_witness :
    (newGame 7).moves.stack = [(newGame 7).board] ∧
    (newGame 7).moves.undos = 0 ∧
    (((Logic.Undo)^[2] (newGame 7)).board = (newGame 7).board ∧
      ((Logic.Undo)^[2] (newGame 7)).moves = (newGame 7).moves ∧
      ((Logic.Undo)^[2] (newGame 7)).MoveCount = 0 ∧
      (1 ≤ 2 → ((Logic.Undo)^[2] (newGame 7)).selected = NO_CARD)) :=
  ⟨by decide, by decide, undo_on_initial_noop (newGame 7) (by decide) (by decide) 2⟩

/-- witness for C6: the seed-1 game after one committed move (history
count 2) satisfies the auto-promotion characterization. -/
theorem autoMoveCard_characterization_witness :
    2 ≤ (runGame 1 [Action.act_interact 23, Action.act_interact 100]).moves.count ∧
    (runGame 1 [Action.act_interact 23, Action.act_interact 100]).AutoMoveCard
      = match (runGame 1 [Action.act_interact 23,
            Action.act_interact 100]).autoCandidates.find?
            (autoEligible (runGame 1 [Action.act_interact 23, Action.act_interact 100])
              (runGame 1 [Action.act_interact 23, Action.act_interact 100]).autoMinRank)
          with
        | some c =>
          (promoteSpec (runGame 1 [Action.act_interact 23, Action.act_interact 100]) c,
            true)
        | none => (runGame 1 [Action.act_interact 23, Action.act_interact 100], false) :=
  ⟨by decide,
    autoMoveCard_characterization
      (runGame 1 [Action.act_interact 23, Action.act_interact 100]) (by decide)⟩

/-- witness for C7: in the seed-3 game, the ace of hearts (card 2) is
moved to the heart foundation and the two of hearts (card 6) is
selected; picking card 2 places the two onto the foundation, burying
the ace, and undo restores the ace's visible location. -/
theorem foundation_burial_witness :
    (runGame 3 [Action.act_interact 2, Action.act_interact 106,
        Action.act_interact 6]).isSelectionActive = true ∧
    isCard 2 = true ∧
    isFoundation ((runGame 3 [Action.act_interact 2, Action.act_interact 106,
        Action.act_interact 6]).board.getD 2 NO_CARD) = true ∧
    ((runGame 3 [Action.act_interact 2, Action.act_interact 106,
        Action.act_interact 6]).Interact 2).2 = true ∧
    (((runGame 3 [Action.act_interact 2, Action.act_interact 106,
          Action.act_interact 6]).Interact 2).1.board.getD 2 NO_CARD
        = (runGame 3 [Action.act_interact 2, Action.act_interact 106,
            Action.act_interact 6]).board.getD 2 NO_CARD + HIDDEN_CARD ∧
      ((runGame 3 [Action.act_interact 2, Action.act_interact 106,
          Action.act_interact 6]).Interact 2).1.board.getD
          ((runGame 3 [Action.act_interact 2, Action.act_interact 106,
              Action.act_interact 6]).selected) NO_CARD
        = (runGame 3 [Action.act_interact 2, Action.act_interact 106,
            Action.act_interact 6]).board.getD 2 NO_CARD ∧
      ((runGame 3 [Action.act_interact 2, Action.act_interact 106,
          Action.act_interact 6]).Interact 2).1.Undo.board.getD 2 NO_CARD
        = (runGame 3 [Action.act_interact 2, Action.act_interact 106,
            Action.act_interact 6]).board.getD 2 NO_CARD) :=
  ⟨by decide, by decide, by decide, by decide,
    foundation_burial 3 [Action.act_interact 2, Action.act_interact 106,
        Action.act_interact 6] 2
      (by decide) (by decide) (by decide) (by decide)⟩

/-- witness for the amended C4: the seed-1 game, moving card 23 to
freecell 0, undoing, re-selecting and redoing the same move. -/
theorem moveCount_scenario_amended_witness :
    (runGame 1 [Action.act_interact 23]).moves.stack.length = 1 ∧
    (runGame 1 [Action.act_interact 23]).moves.undos = 0 ∧
    ((runGame 1 [Action.act_interact 23]).Interact 100).2 = true ∧
    (((runGame 1 [Action.act_interact 23, Action.act_interact 100]).Undo.Interact
        23).1).moves.stack.length = 1 ∧
    (((runGame 1 [Action.act_interact 23, Action.act_interact 100]).Undo.Interact
        23).1).moves.undos = 1 ∧
    ((((runGame 1 [Action.act_interact 23, Action.act_interact 100]).Undo.Interact
        23).1).Interact 100).2 = true ∧
    ((newGame 5).MoveCount = 0 ∧
      ((runGame 1 [Action.act_interact 23]).Interact 100).1.MoveCount = 1 ∧
      ((runGame 1 [Action.act_interact 23]).Interact 100).1.Undo.MoveCount = 2 ∧
      ((((runGame 1 [Action.act_interact 23, Action.act_interact 100]).Undo.Interact
          23).1).Interact 100).1.MoveCount = 3) :=
  ⟨by decide, by decide, by decide, by decide, by decide, by decide,
    moveCount_scenario_amended 5
      (runGame 1 [Action.act_interact 23])
      (((runGame 1 [Action.act_interact 23, Action.act_interact 100]).Undo.Interact 23).1)
      100 100
      (by decide) (by decide) (by decide) (by decide) (by decide) (by decide)⟩

end PureCell
